import Mathlib

/-!
Verification development for the vulkan-app repository (src/app.rs and
src/main.rs): a shallow embedding of the swapchain-builder selection
functions, the framebuffer builder, and the redraw-driven presentation
loop of main.rs, together with theorems settling the specified
properties of these components.

Conventions of the embedding:
- Machine integers (u32) are modelled as Nat; none of the embedded code
  paths can overflow a u32 in a way the claims depend on.
- A Rust panic (expect, unwrap, out-of-bounds indexing) is modelled by
  returning none from an Option-valued function.
- GPU-side objects are modelled by the data the embedded control flow
  actually inspects: a swapchain by an identifier, an image by its
  dimensions, a GpuFuture chain by the inductive FrameToken below.
-/

namespace VulkanApp

/-- Pixel format, from vulkano Format. Only B8G8R8A8Srgb is inspected by
the embedded code; every other variant is collapsed into an indexed
constructor. -/
inductive Format where
  | B8G8R8A8Srgb : Format
  | otherFormat (code : Nat) : Format
deriving DecidableEq

/-- Color space, from vulkano ColorSpace. Only SrgbNonLinear is inspected
by the embedded code. -/
inductive ColorSpace where
  | SrgbNonLinear : ColorSpace
  | otherColorSpace (code : Nat) : ColorSpace
deriving DecidableEq

/-- Present mode, from vulkano PresentMode. -/
inductive PresentMode where
  | Immediate : PresentMode
  | Mailbox : PresentMode
  | Fifo : PresentMode
  | Relaxed : PresentMode
deriving DecidableEq

/-- Set of supported present modes, from vulkano SupportedPresentModes
(one Bool per mode, as in the library struct). -/
structure SupportedPresentModes where
  immediate : Bool
  mailbox : Bool
  fifo : Bool
  relaxed : Bool
  sharedDemand : Bool
  sharedContinuous : Bool
deriving DecidableEq

/-- Surface capabilities, from vulkano Capabilities: the fields the
embedded code reads. max_image_count is Option (none means the bound is
unbounded), current_extent is Option (none means the surface does not
define a current extent), as in the library struct. -/
structure Capabilities where
  supportedFormats : List (Format × ColorSpace)
  presentModes : SupportedPresentModes
  minImageCount : Nat
  maxImageCount : Option Nat
  currentExtent : Option (Nat × Nat)
deriving DecidableEq

/-- select_swap_surface_format (main.rs lines 458-462, identical in
app.rs lines 257-261): find the pair (B8G8R8A8Srgb, SrgbNonLinear) in
the supported formats, otherwise fall back to the first entry; the
expect on an empty list is a panic, modelled by none. -/
def select_swap_surface_format (formats : List (Format × ColorSpace)) :
    Option (Format × ColorSpace) :=
  match formats.find? (fun fc =>
      fc.1 = Format.B8G8R8A8Srgb ∧ fc.2 = ColorSpace.SrgbNonLinear) with
  | some fc => some fc
  | none => formats.head?

/-- select_swap_present_mode (main.rs lines 464-472, identical in app.rs
lines 263-271): Mailbox if supported, else Immediate if supported, else
Fifo. -/
def select_swap_present_mode (availableModes : SupportedPresentModes) :
    PresentMode :=
  if availableModes.mailbox then PresentMode.Mailbox
  else if availableModes.immediate then PresentMode.Immediate
  else PresentMode.Fifo

/-- Image-count negotiation of app.rs create_swapchain (lines 224-228):
image_count starts at min_image_count + 1; the expect on
capabilities.max_image_count panics when the bound is unbounded
(modelled by none); otherwise the count is clamped down to
max_image_count when it exceeds it. -/
def app_image_count (capabilities : Capabilities) : Option Nat :=
  match capabilities.maxImageCount with
  | none => none
  | some maxImageCount =>
    let imageCount := capabilities.minImageCount + 1
    some (if imageCount > maxImageCount then maxImageCount else imageCount)

/-- Image count passed by main.rs create_swapchain (line 443): the raw
capabilities.min_image_count, with no increment and no clamping. -/
def main_image_count (capabilities : Capabilities) : Nat :=
  capabilities.minImageCount

/-- Modelled from the spec (claim C2 wording only, for comparison with
the source definitions): min_image_count + 1, clamped down to
max_image_count when that bound is finite and smaller, left at
min_image_count + 1 when the bound is unbounded or not smaller. -/
def claimed_image_count (capabilities : Capabilities) : Nat :=
  match capabilities.maxImageCount with
  | some maxImageCount =>
    if maxImageCount < capabilities.minImageCount + 1 then maxImageCount
    else capabilities.minImageCount + 1
  | none => capabilities.minImageCount + 1

/-- select_swap_extent (app.rs lines 273-275; the same expression is
inlined at main.rs line 438): the extent is the window inner size,
unconditionally; the capabilities are not consulted. -/
def select_swap_extent (windowInnerSize : Nat × Nat) : Nat × Nat :=
  windowInnerSize

/-- Modelled from the spec (claim C3 wording only, for comparison with
the source definition): the current extent of the capabilities when it
is defined, otherwise the caller-supplied desired extent. -/
def claimed_extent (capabilities : Capabilities)
    (desiredExtent : Nat × Nat) : Nat × Nat :=
  match capabilities.currentExtent with
  | some extent => extent
  | none => desiredExtent

/-- Image sharing mode, from vulkano SharingMode: exclusive, or
concurrent across a list of queue family ids. -/
inductive SharingMode where
  | Exclusive : SharingMode
  | Concurrent (queueFamilies : List Nat) : SharingMode
deriving DecidableEq

/-- The vulkano conversion from a slice of queue references to a
SharingMode (impl From for a queue slice in vulkano sync):
unconditionally Concurrent over the family id of every queue in the
slice, with no deduplication and no equality check. -/
def sharingModeOfQueueSlice (queueFamilies : List Nat) : SharingMode :=
  SharingMode.Concurrent queueFamilies

/-- The vulkano conversion from a single queue reference to a
SharingMode: unconditionally Exclusive. -/
def sharingModeOfSingleQueue (_queueFamily : Nat) : SharingMode :=
  SharingMode.Exclusive

/-- Sharing mode computed at app.rs line 235: the two-element slice of
the graphics queue and the present queue converted via
sharingModeOfQueueSlice, whatever the two family ids are. -/
def app_sharing_mode (graphicsFamily presentFamily : Nat) : SharingMode :=
  sharingModeOfQueueSlice [graphicsFamily, presentFamily]

/-- Sharing mode passed by main.rs create_swapchain (line 448): a single
queue reference, converted via sharingModeOfSingleQueue. -/
def main_sharing_mode (queueFamily : Nat) : SharingMode :=
  sharingModeOfSingleQueue queueFamily

/-- Modelled from the spec (claim C4 wording only, for comparison with
the source definitions): Exclusive when the two queues share a family,
Concurrent across both families when they differ. -/
def claimed_sharing_mode (graphicsFamily presentFamily : Nat) :
    SharingMode :=
  if graphicsFamily = presentFamily then SharingMode.Exclusive
  else SharingMode.Concurrent [graphicsFamily, presentFamily]

/-- A swapchain image, modelled by the data create_framebuffers reads
from it: its dimensions (SwapchainImage dimensions, a u32 pair). -/
structure SwapchainImageM where
  dimensions : Nat × Nat
deriving DecidableEq

/-- A render pass handle, modelled by an identifier; the loop creates
exactly one and only clones the handle. -/
structure RenderPass where
  id : Nat
deriving DecidableEq

/-- A viewport (vulkano Viewport): origin, dimensions and depth range.
The source stores the dimensions as f32 casts of the u32 image
dimensions; the cast is injective on the ranges involved, so the model
keeps the Nat pair. The depth range 0.0..1.0 is modelled as (0, 1). -/
structure Viewport where
  origin : Nat × Nat
  dimensions : Nat × Nat
  depthRange : Nat × Nat
deriving DecidableEq

/-- Dynamic pipeline state (vulkano DynamicState): the loop only ever
writes the viewports field; the payloads of the other five fields are
never inspected, so they are modelled as Option Unit. -/
structure DynamicState where
  lineWidth : Option Unit
  viewports : Option (List Viewport)
  scissors : Option Unit
  compareMask : Option Unit
  writeMask : Option Unit
  reference : Option Unit
deriving DecidableEq

/-- A framebuffer: one swapchain image bound to a render pass
(Framebuffer start, add image, build). The fallible add and build steps
depend on library-side format validation that the embedded control flow
never drives to failure; they are modelled as always succeeding. -/
structure FramebufferM where
  renderPass : RenderPass
  image : SwapchainImageM
deriving DecidableEq

/-- create_framebuffers (main.rs lines 491-512): reads the dimensions of
swapchain_images at index 0 before iterating — an out-of-bounds panic on
an empty list, modelled by none — then sets dynamic_state.viewports to
the single viewport built from those dimensions and maps every image to
a framebuffer on the given render pass, in order. Returns the
framebuffer list and the updated dynamic state. -/
def create_framebuffers (swapchainImages : List SwapchainImageM)
    (renderPass : RenderPass) (dynamicState : DynamicState) :
    Option (List FramebufferM × DynamicState) :=
  match swapchainImages.head? with
  | none => none
  | some firstImage =>
    let dims := firstImage.dimensions
    let viewport : Viewport :=
      { origin := (0, 0), dimensions := dims, depthRange := (0, 1) }
    let dynamicState :=
      { dynamicState with viewports := some [viewport] }
    some (swapchainImages.map (fun image =>
      { renderPass := renderPass, image := image }), dynamicState)

/-!
The presentation loop of main.rs (the RedrawEventsCleared arm of the
event-loop closure, lines 231-309), embedded as a step function on an
explicit loop state. The GPU backend responses at the three fallible
interaction points the loop matches on — swapchain recreation, image
acquisition and fence flush — are supplied per iteration by a RedrawEnv
value; the remaining library calls in the arm (command-buffer building,
then_execute) only fail through expect, i.e. panics, on library errors
the loop never handles, and are modelled as succeeding.
-/

/-- The frame synchronization token previous_frame_end: a boxed GpuFuture
chain. sync::now(device).boxed() is the constructor now; the chain built
at lines 287-294 (join with the acquire future, then_execute the command
buffer, then_swapchain_present of the image index, then flush) is the
constructor chain, recording the previous token, the swapchain presented
to and the presented image index. -/
inductive FrameToken where
  | now : FrameToken
  | chain (prev : FrameToken) (swapchain : Nat) (imageIndex : Nat) : FrameToken
deriving DecidableEq

/-- Result of swapchain.recreate_with_dimensions, as matched at lines
237-241: success with the new swapchain (modelled by a fresh identifier)
and its image list, the UnsupportedDimensions error, or any other
creation error. -/
inductive RecreateResult where
  | ok (newSwapchain : Nat) (newImages : List SwapchainImageM) : RecreateResult
  | unsupportedDimensions : RecreateResult
  | otherError : RecreateResult
deriving DecidableEq

/-- Result of acquire_next_image, as matched at lines 247-255: success
with an image index and the suboptimal flag, the OutOfDate error, or any
other acquire error. -/
inductive AcquireResult where
  | ok (imageIndex : Nat) (suboptimal : Bool) : AcquireResult
  | outOfDate : AcquireResult
  | otherError : AcquireResult
deriving DecidableEq

/-- Result of then_signal_fence_and_flush, as matched at lines 296-308:
success, the OutOfDate flush error, or any other flush error. -/
inductive FlushResult where
  | ok : FlushResult
  | outOfDate : FlushResult
  | otherError : FlushResult
deriving DecidableEq

/-- The GPU backend responses consumed by one redraw iteration. -/
structure RedrawEnv where
  windowInnerSize : Nat × Nat
  recreateResult : RecreateResult
  acquireResult : AcquireResult
  flushResult : FlushResult
deriving DecidableEq

/-- The mutable state owned by the event-loop closure in main.rs:
swapchain (by identifier), swapchain_framebuffers, dynamic_state,
need_to_recreate_swapchain and previous_frame_end (an Option, exactly as
in the source: take leaves none behind). -/
structure LoopState where
  swapchain : Nat
  framebuffers : List FramebufferM
  dynamicState : DynamicState
  needToRecreateSwapchain : Bool
  previousFrameEnd : Option FrameToken
deriving DecidableEq

/-- Observable events of one redraw iteration, in program order: a
swapchain rebuild, an acquisition on a given swapchain, a take of the
frame synchronization token, and a store of a replacement token. -/
inductive Event where
  | rebuild (swapchain : Nat) : Event
  | acquire (swapchain : Nat) (imageIndex : Nat) : Event
  | take : Event
  | store (token : FrameToken) : Event
deriving DecidableEq

/-- How one redraw iteration ended, mirroring the exit paths of the
RedrawEventsCleared arm. -/
inductive FrameOutcome where
  | skippedDegenerateSurface : FrameOutcome
  | skippedOutOfDateAcquire : FrameOutcome
  | presented : FrameOutcome
  | droppedOutOfDateFlush : FrameOutcome
  | droppedOtherFlushError : FrameOutcome
deriving DecidableEq

/-- The render pass captured by the event-loop closure (created once at
line 182 and only cloned afterwards). -/
def renderPass0 : RenderPass := { id := 0 }

/-- Lines 234-245, the rebuild-if-stale step: when the stale flag is
set, match recreate_with_dimensions; on success replace the swapchain,
rebuild the framebuffers via create_framebuffers (whose empty-list panic
propagates as none) and clear the flag; on UnsupportedDimensions return
from the closure with the state untouched (Sum.inr); any other error
panics (none). When the flag is clear the step is a no-op. -/
def rebuildIfStale (env : RedrawEnv) (s : LoopState) :
    Option (Sum (LoopState × List Event) (LoopState × FrameOutcome)) :=
  if s.needToRecreateSwapchain then
    match env.recreateResult with
    | RecreateResult.ok newSwapchain newImages =>
      match create_framebuffers newImages renderPass0 s.dynamicState with
      | none => none
      | some (newFramebuffers, newDynamicState) =>
        some (Sum.inl ({ s with
          swapchain := newSwapchain,
          framebuffers := newFramebuffers,
          dynamicState := newDynamicState,
          needToRecreateSwapchain := false }, [Event.rebuild newSwapchain]))
    | RecreateResult.unsupportedDimensions =>
      some (Sum.inr (s, FrameOutcome.skippedDegenerateSurface))
    | RecreateResult.otherError => none
  else
    some (Sum.inl (s, []))

/-- Lines 247-260, the acquire step and the suboptimal check: on a
successful acquisition with the suboptimal flag set, mark the swapchain
stale and continue with this frame; on OutOfDate mark stale and return
from the closure (Sum.inr); any other acquire error panics (none). -/
def acquireStep (env : RedrawEnv) (s : LoopState) :
    Option (Sum (LoopState × Nat × List Event) (LoopState × FrameOutcome)) :=
  match env.acquireResult with
  | AcquireResult.ok imageIndex suboptimal =>
    let s1 :=
      if suboptimal then { s with needToRecreateSwapchain := true } else s
    some (Sum.inl (s1, imageIndex, [Event.acquire s.swapchain imageIndex]))
  | AcquireResult.outOfDate =>
    some (Sum.inr ({ s with needToRecreateSwapchain := true },
      FrameOutcome.skippedOutOfDateAcquire))
  | AcquireResult.otherError => none

/-- Lines 262-285, the record step: the command buffer begins the render
pass against swapchain_framebuffers indexed by image_index — an
out-of-bounds index panics (none) — draws, and ends the pass. The model
keeps the framebuffer the recorded buffer is tied to. -/
def recordStep (s : LoopState) (imageIndex : Nat) : Option FramebufferM :=
  s.framebuffers.get? imageIndex

/-- Lines 287-308, the submit-and-flush step: take the frame
synchronization token out of previous_frame_end — expect fails fast
(none) when it was already consumed — compose the chain, and match the
flush result, storing in every arm a replacement token: the flushed
chain on success, or the already-completed placeholder
sync::now(device).boxed() on either flush error; the OutOfDate flush
error additionally marks the swapchain stale, and any other flush error
is only logged. -/
def submitAndFlush (env : RedrawEnv) (s : LoopState) (imageIndex : Nat) :
    Option (LoopState × FrameOutcome × List Event) :=
  match s.previousFrameEnd with
  | none => none
  | some prev =>
    let s1 := { s with previousFrameEnd := none }
    let composed := FrameToken.chain prev s1.swapchain imageIndex
    match env.flushResult with
    | FlushResult.ok =>
      some ({ s1 with previousFrameEnd := some composed },
        FrameOutcome.presented, [Event.take, Event.store composed])
    | FlushResult.outOfDate =>
      some ({ s1 with
          needToRecreateSwapchain := true,
          previousFrameEnd := some FrameToken.now },
        FrameOutcome.droppedOutOfDateFlush,
        [Event.take, Event.store FrameToken.now])
    | FlushResult.otherError =>
      some ({ s1 with previousFrameEnd := some FrameToken.now },
        FrameOutcome.droppedOtherFlushError,
        [Event.take, Event.store FrameToken.now])

/-- One redraw iteration (the whole RedrawEventsCleared arm, lines
231-309): the unwrap of previous_frame_end for cleanup_finished fails
fast (none) on an already-consumed token (cleanup_finished itself only
releases finished bookkeeping and is a no-op on the token value), then
the rebuild-if-stale, acquire, record, and submit-and-flush steps run in
order, each early return or panic propagating. The result carries the
new state, the outcome, and the event trace of the iteration. -/
def onRedraw (env : RedrawEnv) (s : LoopState) :
    Option (LoopState × FrameOutcome × List Event) :=
  match s.previousFrameEnd with
  | none => none
  | some _ =>
    match rebuildIfStale env s with
    | none => none
    | some (Sum.inr (s1, outcome)) => some (s1, outcome, [])
    | some (Sum.inl (s1, events1)) =>
      match acquireStep env s1 with
      | none => none
      | some (Sum.inr (s2, outcome)) => some (s2, outcome, events1)
      | some (Sum.inl (s2, imageIndex, events2)) =>
        match recordStep s2 imageIndex with
        | none => none
        | some _commandBuffer =>
          match submitAndFlush env s2 imageIndex with
          | none => none
          | some (s3, outcome, events3) =>
            some (s3, outcome, events1 ++ events2 ++ events3)

/-- The WindowEvent Resized arm (lines 225-230): mark the swapchain
stale; nothing else changes. -/
def onResized (s : LoopState) : LoopState :=
  { s with needToRecreateSwapchain := true }

/-- A sequence of redraw iterations: run onRedraw over a list of
per-iteration backend responses, collecting the event trace of each
iteration; a panic in any iteration propagates as none. -/
def runRedraws (envs : List RedrawEnv) (s : LoopState) :
    Option (LoopState × List (List Event)) :=
  match envs with
  | [] => some (s, [])
  | env :: rest =>
    match onRedraw env s with
    | none => none
    | some (s1, _, events) =>
      match runRedraws rest s1 with
      | none => none
      | some (s2, traces) => some (s2, events :: traces)

/-- The token-relevant subtrace of an event trace: takes and stores. -/
def tokenEvents (events : List Event) : List Event :=
  events.filter (fun e =>
    match e with
    | Event.take => true
    | Event.store _ => true
    | _ => false)

/-! Concrete values used by witness and counterexample theorems. -/

/-- Present modes with only fifo supported. -/
def modesFifoOnly : SupportedPresentModes :=
  { immediate := false, mailbox := false, fifo := true, relaxed := false,
    sharedDemand := false, sharedContinuous := false }

/-- Capabilities with an unbounded max_image_count. -/
def capsC2unbounded : Capabilities :=
  { supportedFormats := [(Format.B8G8R8A8Srgb, ColorSpace.SrgbNonLinear)],
    presentModes := modesFifoOnly, minImageCount := 2,
    maxImageCount := none, currentExtent := none }

/-- Capabilities with min_image_count 2 and max_image_count 3. -/
def capsC2bounded : Capabilities :=
  { supportedFormats := [(Format.B8G8R8A8Srgb, ColorSpace.SrgbNonLinear)],
    presentModes := modesFifoOnly, minImageCount := 2,
    maxImageCount := some 3, currentExtent := none }

/-- Capabilities defining a current extent of (100, 100). -/
def capsC3 : Capabilities :=
  { supportedFormats := [(Format.B8G8R8A8Srgb, ColorSpace.SrgbNonLinear)],
    presentModes := modesFifoOnly, minImageCount := 2,
    maxImageCount := some 3, currentExtent := some (100, 100) }

def img800 : SwapchainImageM := { dimensions := (800, 600) }

def img640 : SwapchainImageM := { dimensions := (640, 480) }

def ds0 : DynamicState :=
  { lineWidth := none, viewports := none, scissors := none,
    compareMask := none, writeMask := none, reference := none }

def fb800 : FramebufferM := { renderPass := renderPass0, image := img800 }

/-- A loop state holding a fresh token, one framebuffer, not stale. -/
def s0 : LoopState :=
  { swapchain := 0, framebuffers := [fb800], dynamicState := ds0,
    needToRecreateSwapchain := false,
    previousFrameEnd := some FrameToken.now }

def s0stale : LoopState := { s0 with needToRecreateSwapchain := true }

def envPresent : RedrawEnv :=
  { windowInnerSize := (800, 600),
    recreateResult := RecreateResult.ok 1 [img800],
    acquireResult := AcquireResult.ok 0 false, flushResult := FlushResult.ok }

def envAcqOutOfDate : RedrawEnv :=
  { windowInnerSize := (800, 600),
    recreateResult := RecreateResult.ok 1 [img800],
    acquireResult := AcquireResult.outOfDate, flushResult := FlushResult.ok }

def envFlushOutOfDate : RedrawEnv :=
  { windowInnerSize := (800, 600),
    recreateResult := RecreateResult.ok 1 [img800],
    acquireResult := AcquireResult.ok 0 false,
    flushResult := FlushResult.outOfDate }

def envSuboptimal : RedrawEnv :=
  { windowInnerSize := (800, 600),
    recreateResult := RecreateResult.ok 1 [img800],
    acquireResult := AcquireResult.ok 0 true, flushResult := FlushResult.ok }

def envUnsupported : RedrawEnv :=
  { windowInnerSize := (0, 0),
    recreateResult := RecreateResult.unsupportedDimensions,
    acquireResult := AcquireResult.ok 0 false, flushResult := FlushResult.ok }

/-- Final state of two presented frames from s0. -/
def sFinalC1 : LoopState :=
  { s0 with previousFrameEnd := some (FrameToken.chain (FrameToken.chain FrameToken.now 0 0) 0 0) }

/-- Event traces of two presented frames from s0. -/
def tracesC1 : List (List Event) :=
  [[Event.acquire 0 0, Event.take,
    Event.store (FrameToken.chain FrameToken.now 0 0)],
   [Event.acquire 0 0, Event.take,
    Event.store (FrameToken.chain (FrameToken.chain FrameToken.now 0 0) 0 0)]]

/-- State after a flush failure from s0: stale, token reset to the
completed placeholder. -/
def s1C6 : LoopState :=
  { s0 with needToRecreateSwapchain := true, previousFrameEnd := some FrameToken.now }

/-- State after presenting a suboptimal frame from s0: stale, token the
flushed chain. -/
def s1C8 : LoopState :=
  { s0 with needToRecreateSwapchain := true, previousFrameEnd := some (FrameToken.chain FrameToken.now 0 0) }

/-! Step lemmas: computation rules and inversion principles for the
four phases of a redraw iteration. -/

theorem create_framebuffers_nil (renderPass : RenderPass)
    (dynamicState : DynamicState) :
    create_framebuffers [] renderPass dynamicState = none := rfl

theorem create_framebuffers_cons (img : SwapchainImageM)
    (imgs : List SwapchainImageM) (renderPass : RenderPass)
    (dynamicState : DynamicState) :
    create_framebuffers (img :: imgs) renderPass dynamicState =
      some ((img :: imgs).map (fun image =>
          { renderPass := renderPass, image := image }),
        { dynamicState with
          viewports := some [{ origin := (0, 0), dimensions := img.dimensions,
                               depthRange := (0, 1) }] }) := rfl

theorem rebuildIfStale_not_stale (env : RedrawEnv) (s : LoopState)
    (h : s.needToRecreateSwapchain = false) :
    rebuildIfStale env s = some (Sum.inl (s, [])) := by
  unfold rebuildIfStale
  rw [h]
  rfl

theorem rebuildIfStale_unsupported (env : RedrawEnv) (s : LoopState)
    (hs : s.needToRecreateSwapchain = true)
    (hr : env.recreateResult = RecreateResult.unsupportedDimensions) :
    rebuildIfStale env s =
      some (Sum.inr (s, FrameOutcome.skippedDegenerateSurface)) := by
  unfold rebuildIfStale
  rw [hs, hr]
  rfl

theorem rebuildIfStale_ok (env : RedrawEnv) (s : LoopState)
    (newSwapchain : Nat) (img : SwapchainImageM)
    (imgs : List SwapchainImageM)
    (hs : s.needToRecreateSwapchain = true)
    (hr : env.recreateResult = RecreateResult.ok newSwapchain (img :: imgs)) :
    rebuildIfStale env s = some (Sum.inl ({ s with
        swapchain := newSwapchain,
        framebuffers := (img :: imgs).map (fun image =>
          { renderPass := renderPass0, image := image }),
        dynamicState := { s.dynamicState with
          viewports := some [{ origin := (0, 0), dimensions := img.dimensions,
                               depthRange := (0, 1) }] },
        needToRecreateSwapchain := false },
      [Event.rebuild newSwapchain])) := by
  unfold rebuildIfStale
  rw [hs, hr]
  dsimp only
  rw [create_framebuffers_cons]
  rfl

theorem rebuildIfStale_inl_inversion (env : RedrawEnv) (s s1 : LoopState)
    (events : List Event)
    (h : rebuildIfStale env s = some (Sum.inl (s1, events))) :
    s1.previousFrameEnd = s.previousFrameEnd
    ∧ s1.needToRecreateSwapchain = false
    ∧ tokenEvents events = []
    ∧ ((events = [] ∧ s1 = s ∧ s.needToRecreateSwapchain = false)
       ∨ (∃ imgs, env.recreateResult = RecreateResult.ok s1.swapchain imgs
           ∧ events = [Event.rebuild s1.swapchain]
           ∧ s.needToRecreateSwapchain = true)) := by
  obtain ⟨wI, rec, acq, fl⟩ := env
  obtain ⟨sc, fbs, ds, flag, prev⟩ := s
  unfold rebuildIfStale at h
  dsimp only at h ⊢
  cases flag with
  | false =>
    simp only [Bool.false_eq_true, if_false, Option.some.injEq,
      Sum.inl.injEq, Prod.mk.injEq] at h
    obtain ⟨h1, h2⟩ := h
    subst h1
    subst h2
    simp [tokenEvents]
  | true =>
    simp only [if_true] at h
    cases rec with
    | ok newSwapchain newImages =>
      dsimp only at h
      rcases newImages with _ | ⟨img, imgs⟩
      · rw [create_framebuffers_nil] at h
        simp at h
      · rw [create_framebuffers_cons] at h
        simp only [Option.some.injEq, Sum.inl.injEq, Prod.mk.injEq] at h
        obtain ⟨h1, h2⟩ := h
        subst h1
        subst h2
        refine ⟨rfl, rfl, by simp [tokenEvents], Or.inr ⟨img :: imgs, rfl, rfl, rfl⟩⟩
    | unsupportedDimensions => simp at h
    | otherError => simp at h

theorem rebuildIfStale_inr_inversion (env : RedrawEnv) (s : LoopState)
    (p : LoopState × FrameOutcome)
    (h : rebuildIfStale env s = some (Sum.inr p)) :
    p = (s, FrameOutcome.skippedDegenerateSurface)
    ∧ s.needToRecreateSwapchain = true
    ∧ env.recreateResult = RecreateResult.unsupportedDimensions := by
  obtain ⟨wI, rec, acq, fl⟩ := env
  obtain ⟨sc, fbs, ds, flag, prev⟩ := s
  unfold rebuildIfStale at h
  dsimp only at h ⊢
  cases flag with
  | false => simp at h
  | true =>
    simp only [if_true] at h
    cases rec with
    | ok newSwapchain newImages =>
      dsimp only at h
      rcases newImages with _ | ⟨img, imgs⟩
      · rw [create_framebuffers_nil] at h
        simp at h
      · rw [create_framebuffers_cons] at h
        simp at h
    | unsupportedDimensions =>
      simp only [Option.some.injEq, Sum.inr.injEq] at h
      exact ⟨h.symm, rfl, rfl⟩
    | otherError => simp at h

theorem acquireStep_inl_inversion (env : RedrawEnv) (s sb : LoopState)
    (imageIndex : Nat) (events : List Event)
    (h : acquireStep env s = some (Sum.inl (sb, imageIndex, events))) :
    sb.previousFrameEnd = s.previousFrameEnd
    ∧ sb.swapchain = s.swapchain
    ∧ sb.framebuffers = s.framebuffers
    ∧ events = [Event.acquire s.swapchain imageIndex]
    ∧ tokenEvents events = []
    ∧ ∃ suboptimal, env.acquireResult = AcquireResult.ok imageIndex suboptimal
        ∧ sb.needToRecreateSwapchain =
            (s.needToRecreateSwapchain || suboptimal) := by
  obtain ⟨wI, rec, acq, fl⟩ := env
  obtain ⟨sc, fbs, ds, flag, prev⟩ := s
  unfold acquireStep at h
  dsimp only at h ⊢
  cases acq with
  | ok i subopt =>
    dsimp only at h
    cases subopt with
    | false =>
      simp only [Bool.false_eq_true, if_false, Option.some.injEq,
        Sum.inl.injEq, Prod.mk.injEq] at h
      obtain ⟨h1, h2, h3⟩ := h
      subst h1
      subst h2
      subst h3
      exact ⟨rfl, rfl, rfl, rfl, by simp [tokenEvents], false, rfl, by simp⟩
    | true =>
      simp only [if_true, Option.some.injEq, Sum.inl.injEq, Prod.mk.injEq] at h
      obtain ⟨h1, h2, h3⟩ := h
      subst h1
      subst h2
      subst h3
      exact ⟨rfl, rfl, rfl, rfl, by simp [tokenEvents], true, rfl, by simp⟩
  | outOfDate => simp at h
  | otherError => simp at h

theorem acquireStep_inr_inversion (env : RedrawEnv) (s : LoopState)
    (p : LoopState × FrameOutcome)
    (h : acquireStep env s = some (Sum.inr p)) :
    p = ({ s with needToRecreateSwapchain := true },
         FrameOutcome.skippedOutOfDateAcquire)
    ∧ env.acquireResult = AcquireResult.outOfDate := by
  obtain ⟨wI, rec, acq, fl⟩ := env
  obtain ⟨sc, fbs, ds, flag, prev⟩ := s
  unfold acquireStep at h
  dsimp only at h ⊢
  cases acq with
  | ok i subopt => simp at h
  | outOfDate =>
    simp only [Option.some.injEq, Sum.inr.injEq] at h
    exact ⟨h.symm, rfl⟩
  | otherError => simp at h

theorem submitAndFlush_inversion (env : RedrawEnv) (s : LoopState)
    (imageIndex : Nat) (s1 : LoopState) (outcome : FrameOutcome)
    (events : List Event)
    (h : submitAndFlush env s imageIndex = some (s1, outcome, events)) :
    ∃ prev, s.previousFrameEnd = some prev
      ∧ ((env.flushResult = FlushResult.ok
            ∧ outcome = FrameOutcome.presented
            ∧ s1 = { s with previousFrameEnd := some (FrameToken.chain prev s.swapchain imageIndex) }
            ∧ events = [Event.take, Event.store (FrameToken.chain prev s.swapchain imageIndex)])
        ∨ (env.flushResult = FlushResult.outOfDate
            ∧ outcome = FrameOutcome.droppedOutOfDateFlush
            ∧ s1 = { s with needToRecreateSwapchain := true, previousFrameEnd := some FrameToken.now }
            ∧ events = [Event.take, Event.store FrameToken.now])
        ∨ (env.flushResult = FlushResult.otherError
            ∧ outcome = FrameOutcome.droppedOtherFlushError
            ∧ s1 = { s with previousFrameEnd := some FrameToken.now }
            ∧ events = [Event.take, Event.store FrameToken.now])) := by
  obtain ⟨wI, rec, acq, fl⟩ := env
  obtain ⟨sc, fbs, ds, flag, prev0⟩ := s
  unfold submitAndFlush at h
  dsimp only at h ⊢
  cases prev0 with
  | none => simp at h
  | some prev =>
    dsimp only at h
    refine ⟨prev, rfl, ?_⟩
    cases fl with
    | ok =>
      simp only [Option.some.injEq, Prod.mk.injEq] at h
      obtain ⟨h1, h2, h3⟩ := h
      exact Or.inl ⟨rfl, h2.symm, h1.symm, h3.symm⟩
    | outOfDate =>
      simp only [Option.some.injEq, Prod.mk.injEq] at h
      obtain ⟨h1, h2, h3⟩ := h
      exact Or.inr (Or.inl ⟨rfl, h2.symm, h1.symm, h3.symm⟩)
    | otherError =>
      simp only [Option.some.injEq, Prod.mk.injEq] at h
      obtain ⟨h1, h2, h3⟩ := h
      exact Or.inr (Or.inr ⟨rfl, h2.symm, h1.symm, h3.symm⟩)

/-! Iteration-level lemmas about onRedraw and runRedraws. -/

theorem tokenEvents_append (a b : List Event) :
    tokenEvents (a ++ b) = tokenEvents a ++ tokenEvents b := by
  simp [tokenEvents]

/-- An iteration that starts with an already-consumed token fails fast:
the unwrap panics. -/
theorem onRedraw_none_of_no_token (env : RedrawEnv) (s : LoopState)
    (h : s.previousFrameEnd = none) : onRedraw env s = none := by
  unfold onRedraw
  rw [h]

/-- Token-trace shape of one iteration: either the iteration performs no
token operation and leaves previous_frame_end unchanged, or it performs
exactly one take followed by exactly one store, and the stored token is
the new previous_frame_end. -/
theorem onRedraw_token_shape (env : RedrawEnv) (s s1 : LoopState)
    (outcome : FrameOutcome) (events : List Event)
    (h : onRedraw env s = some (s1, outcome, events)) :
    (tokenEvents events = [] ∧ s1.previousFrameEnd = s.previousFrameEnd)
    ∨ ∃ t, tokenEvents events = [Event.take, Event.store t]
        ∧ s1.previousFrameEnd = some t := by
  unfold onRedraw at h
  split at h
  · exact absurd h (by simp)
  split at h
  · exact absurd h (by simp)
  case _ sa oc heq =>
    simp only [Option.some.injEq, Prod.mk.injEq] at h
    obtain ⟨h1, h2, h3⟩ := h
    obtain ⟨hp, _, _⟩ := rebuildIfStale_inr_inversion env s (sa, oc) heq
    rw [Prod.mk.injEq] at hp
    refine Or.inl ⟨?_, ?_⟩
    · rw [← h3]
      simp [tokenEvents]
    · rw [← h1, hp.1]
  case _ sa ev1 heq =>
    split at h
    · exact absurd h (by simp)
    case _ sb oc heq2 =>
      simp only [Option.some.injEq, Prod.mk.injEq] at h
      obtain ⟨h1, h2, h3⟩ := h
      obtain ⟨hreb1, _, hrebTok, _⟩ := rebuildIfStale_inl_inversion env s sa ev1 heq
      obtain ⟨hsb, _⟩ := acquireStep_inr_inversion env sa (sb, oc) heq2
      rw [Prod.mk.injEq] at hsb
      refine Or.inl ⟨?_, ?_⟩
      · rw [← h3]
        exact hrebTok
      · rw [← h1, hsb.1]
        exact hreb1
    case _ sb imageIndex ev2 heq2 =>
      split at h
      · exact absurd h (by simp)
      case _ cb heq3 =>
        split at h
        · exact absurd h (by simp)
        case _ sc oc ev3 heq4 =>
          simp only [Option.some.injEq, Prod.mk.injEq] at h
          obtain ⟨h1, h2, h3⟩ := h
          obtain ⟨hreb1, _, hrebTok, _⟩ :=
            rebuildIfStale_inl_inversion env s sa ev1 heq
          obtain ⟨hacq1, _, _, hacqEv, hacqTok, _⟩ :=
            acquireStep_inl_inversion env sa sb imageIndex ev2 heq2
          obtain ⟨prev, hprev, hcases⟩ :=
            submitAndFlush_inversion env sb imageIndex sc oc ev3 heq4
          have hev3 : ∃ t, ev3 = [Event.take, Event.store t]
              ∧ sc.previousFrameEnd = some t := by
            rcases hcases with ⟨_, _, hs1, hev⟩ | ⟨_, _, hs1, hev⟩ | ⟨_, _, hs1, hev⟩
            · exact ⟨_, hev, by rw [hs1]⟩
            · exact ⟨_, hev, by rw [hs1]⟩
            · exact ⟨_, hev, by rw [hs1]⟩
          obtain ⟨t, hev3eq, hscPrev⟩ := hev3
          refine Or.inr ⟨t, ?_, ?_⟩
          · rw [← h3, tokenEvents_append, tokenEvents_append, hrebTok, hacqTok,
              hev3eq]
            simp [tokenEvents]
          · rw [← h1]
            exact hscPrev

/-- The token is replaced by the end of every non-panicking iteration:
previous_frame_end is some again. -/
theorem onRedraw_preserves_token (env : RedrawEnv) (s s1 : LoopState)
    (outcome : FrameOutcome) (events : List Event)
    (h : onRedraw env s = some (s1, outcome, events)) :
    s1.previousFrameEnd.isSome = true := by
  rcases onRedraw_token_shape env s s1 outcome events h with ⟨_, hp⟩ | ⟨t, _, hp⟩
  · rw [hp]
    cases hprev : s.previousFrameEnd with
    | none => rw [onRedraw_none_of_no_token env s hprev] at h; exact absurd h (by simp)
    | some _ => rfl
  · rw [hp]
    rfl

/-- Invariant of a run: from a state holding a token, every iteration of
the run ends holding a token, and every iteration trace performs either
no token operation or exactly one take immediately followed by one
store. -/
theorem runRedraws_token_invariant (envs : List RedrawEnv) :
    ∀ s sFinal traces, s.previousFrameEnd.isSome = true →
    runRedraws envs s = some (sFinal, traces) →
    sFinal.previousFrameEnd.isSome = true
    ∧ ∀ events ∈ traces,
        tokenEvents events = []
        ∨ ∃ t, tokenEvents events = [Event.take, Event.store t] := by
  induction envs with
  | nil =>
    intro s sFinal traces hinit hrun
    unfold runRedraws at hrun
    simp only [Option.some.injEq, Prod.mk.injEq] at hrun
    obtain ⟨h1, h2⟩ := hrun
    subst h1
    subst h2
    exact ⟨hinit, by simp⟩
  | cons env rest ih =>
    intro s sFinal traces hinit hrun
    unfold runRedraws at hrun
    split at hrun
    · exact absurd hrun (by simp)
    case _ s1 oc events heq =>
      split at hrun
      · exact absurd hrun (by simp)
      case _ s2 traces2 heq2 =>
        simp only [Option.some.injEq, Prod.mk.injEq] at hrun
        obtain ⟨h1, h2⟩ := hrun
        have hs1 := onRedraw_preserves_token env s s1 oc events heq
        obtain ⟨hfin, htr⟩ := ih s1 s2 traces2 hs1 heq2
        refine ⟨by rw [← h1]; exact hfin, ?_⟩
        intro evs hmem
        rw [← h2] at hmem
        rcases List.mem_cons.mp hmem with hevs | hevs
        · subst hevs
          rcases onRedraw_token_shape env s s1 oc evs heq with ⟨ht, _⟩ | ⟨t, ht, _⟩
          · exact Or.inl ht
          · exact Or.inr ⟨t, ht⟩
        · exact htr evs hevs

/-- Full inversion of one iteration: a non-panicking iteration is a
degenerate-surface skip, an out-of-date-acquire skip, or a full
record-submit-flush pass. -/
theorem onRedraw_inversion (env : RedrawEnv) (s s1 : LoopState)
    (outcome : FrameOutcome) (events : List Event)
    (h : onRedraw env s = some (s1, outcome, events)) :
    (s1 = s ∧ outcome = FrameOutcome.skippedDegenerateSurface ∧ events = []
      ∧ s.needToRecreateSwapchain = true
      ∧ env.recreateResult = RecreateResult.unsupportedDimensions)
    ∨ (∃ sa ev1, rebuildIfStale env s = some (Sum.inl (sa, ev1))
        ∧ env.acquireResult = AcquireResult.outOfDate
        ∧ s1 = { sa with needToRecreateSwapchain := true }
        ∧ outcome = FrameOutcome.skippedOutOfDateAcquire
        ∧ events = ev1)
    ∨ (∃ sa ev1 sb imageIndex ev2 ev3,
        rebuildIfStale env s = some (Sum.inl (sa, ev1))
        ∧ acquireStep env sa = some (Sum.inl (sb, imageIndex, ev2))
        ∧ (recordStep sb imageIndex).isSome = true
        ∧ submitAndFlush env sb imageIndex = some (s1, outcome, ev3)
        ∧ events = ev1 ++ ev2 ++ ev3) := by
  unfold onRedraw at h
  split at h
  · exact absurd h (by simp)
  split at h
  · exact absurd h (by simp)
  case _ sa oc heq =>
    simp only [Option.some.injEq, Prod.mk.injEq] at h
    obtain ⟨h1, h2, h3⟩ := h
    obtain ⟨hp, hflag, hrec⟩ := rebuildIfStale_inr_inversion env s (sa, oc) heq
    rw [Prod.mk.injEq] at hp
    exact Or.inl ⟨by rw [← h1, hp.1], by rw [← h2, hp.2], h3.symm, hflag, hrec⟩
  case _ sa ev1 heq =>
    split at h
    · exact absurd h (by simp)
    case _ sb oc heq2 =>
      simp only [Option.some.injEq, Prod.mk.injEq] at h
      obtain ⟨h1, h2, h3⟩ := h
      obtain ⟨hsb, hacq⟩ := acquireStep_inr_inversion env sa (sb, oc) heq2
      rw [Prod.mk.injEq] at hsb
      exact Or.inr (Or.inl ⟨sa, ev1, heq, hacq, by rw [← h1, hsb.1],
        by rw [← h2, hsb.2], h3.symm⟩)
    case _ sb imageIndex ev2 heq2 =>
      split at h
      · exact absurd h (by simp)
      case _ cb heq3 =>
        split at h
        · exact absurd h (by simp)
        case _ sc oc ev3 heq4 =>
          simp only [Option.some.injEq, Prod.mk.injEq] at h
          obtain ⟨h1, h2, h3⟩ := h
          refine Or.inr (Or.inr ⟨sa, ev1, sb, imageIndex, ev2, ev3, heq, heq2,
            by rw [heq3]; rfl, ?_, h3.symm⟩)
          rw [← h1, ← h2]
          exact heq4

/-- From a stale state, any iteration whose trace contains an
acquisition has first rebuilt the swapchain, and the acquisition is on
the swapchain the rebuild produced. -/
theorem stale_rebuilds_before_acquire (env : RedrawEnv) (s s1 : LoopState)
    (outcome : FrameOutcome) (events : List Event) (sc imageIndex : Nat)
    (hstale : s.needToRecreateSwapchain = true)
    (h : onRedraw env s = some (s1, outcome, events))
    (hmem : Event.acquire sc imageIndex ∈ events) :
    ∃ imgs rest, env.recreateResult = RecreateResult.ok sc imgs
      ∧ events = Event.rebuild sc :: Event.acquire sc imageIndex :: rest := by
  rcases onRedraw_inversion env s s1 outcome events h with
    ⟨_, _, hev, _, _⟩ | ⟨sa, ev1, hreb, _, _, _, hev⟩ |
    ⟨sa, ev1, sb, i, ev2, ev3, hreb, hacq, _, hsub, hev⟩
  · rw [hev] at hmem
    exact absurd hmem (by simp)
  · obtain ⟨_, _, _, hcase⟩ := rebuildIfStale_inl_inversion env s sa ev1 hreb
    rcases hcase with ⟨_, _, hflag⟩ | ⟨imgs, _, hev1, _⟩
    · rw [hflag] at hstale
      exact absurd hstale (by simp)
    · rw [hev, hev1] at hmem
      exact absurd hmem (by simp)
  · obtain ⟨_, _, _, hcase⟩ := rebuildIfStale_inl_inversion env s sa ev1 hreb
    rcases hcase with ⟨_, _, hflag⟩ | ⟨imgs, hrec, hev1, _⟩
    · rw [hflag] at hstale
      exact absurd hstale (by simp)
    · obtain ⟨_, _, _, hev2, _, _⟩ :=
        acquireStep_inl_inversion env sa sb i ev2 hacq
      obtain ⟨prev, _, hcases⟩ :=
        submitAndFlush_inversion env sb i s1 outcome ev3 hsub
      have hev3 : ∃ t, ev3 = [Event.take, Event.store t] := by
        rcases hcases with ⟨_, _, _, he⟩ | ⟨_, _, _, he⟩ | ⟨_, _, _, he⟩ <;>
          exact ⟨_, he⟩
      obtain ⟨t, hev3eq⟩ := hev3
      rw [hev, hev1, hev2, hev3eq] at hmem
      simp only [List.cons_append, List.nil_append, List.mem_cons,
        List.not_mem_nil, or_false] at hmem
      rcases hmem with hc | hc | hc | hc
      · exact absurd hc (by simp)
      · rw [Event.acquire.injEq] at hc
        obtain ⟨hsc, hi⟩ := hc
        subst hsc
        subst hi
        refine ⟨imgs, [Event.take, Event.store t], hrec, ?_⟩
        rw [hev, hev1, hev2, hev3eq]
        rfl
      · exact absurd hc (by simp)
      · exact absurd hc (by simp)

/-- The submit-and-flush step never panics when the token is present: in
every flush outcome it returns. -/
theorem submitAndFlush_isSome (env : RedrawEnv) (s : LoopState)
    (imageIndex : Nat) (prev : FrameToken)
    (hprev : s.previousFrameEnd = some prev) :
    (submitAndFlush env s imageIndex).isSome = true := by
  unfold submitAndFlush
  rw [hprev]
  cases env.flushResult <;> rfl

/-! Claim theorems: selection functions and builders. -/

/-- Claim C2 counterexample: at capabilities with min_image_count 2 and
an unbounded max_image_count, the claim prescribes image count 3 in both
builders, but app.rs create_swapchain panics on the expect of
max_image_count (none) and main.rs create_swapchain passes the raw
min_image_count 2. -/
theorem image_count_claim_false :
    app_image_count capsC2unbounded ≠
      some (claimed_image_count capsC2unbounded)
    ∧ main_image_count capsC2unbounded ≠
      claimed_image_count capsC2unbounded := by
  decide

/-- Claim C2 (amended): in app.rs create_swapchain, when max_image_count
is finite the image count equals min (min_image_count + 1)
max_image_count — i.e. min_image_count + 1 clamped down to the bound —
while an unbounded max_image_count makes the build panic instead of
using min_image_count + 1; in main.rs create_swapchain the image count
passed is min_image_count, without the increment. -/
theorem image_count_negotiation (capabilities : Capabilities) :
    (∀ maxImageCount, capabilities.maxImageCount = some maxImageCount →
      app_image_count capabilities =
        some (min (capabilities.minImageCount + 1) maxImageCount))
    ∧ (capabilities.maxImageCount = none →
      app_image_count capabilities = none)
    ∧ main_image_count capabilities = capabilities.minImageCount := by
  refine ⟨?_, ?_, rfl⟩
  · intro maxImageCount hmax
    unfold app_image_count
    rw [hmax]
    simp only [Option.some.injEq]
    rw [Nat.min_def]
    split <;> split <;> omega
  · intro hmax
    unfold app_image_count
    rw [hmax]

/-- Claim C2 witness: the amended statement evaluated at concrete
capabilities, bounded and unbounded. -/
theorem image_count_negotiation_witness :
    app_image_count capsC2bounded =
      some (min (capsC2bounded.minImageCount + 1) 3)
    ∧ app_image_count capsC2unbounded = none
    ∧ main_image_count capsC2bounded = capsC2bounded.minImageCount :=
  ⟨(image_count_negotiation capsC2bounded).1 3 rfl,
   (image_count_negotiation capsC2unbounded).2.1 rfl,
   (image_count_negotiation capsC2bounded).2.2⟩

/-- Claim C3 counterexample: with capabilities defining current extent
(100, 100) and a window inner size of (200, 200), the code chooses
(200, 200) — the window size — not the defined current extent the claim
prescribes. -/
theorem extent_claim_false :
    select_swap_extent (200, 200) ≠ claimed_extent capsC3 (200, 200) := by
  decide

/-- Claim C3 (amended): the chosen extent is always the window inner
size; the capabilities are never consulted, so the choice agrees with
the claimed selection exactly when the current extent is undefined or
happens to coincide with the window inner size. -/
theorem extent_selection (capabilities : Capabilities)
    (windowInnerSize : Nat × Nat) :
    select_swap_extent windowInnerSize = windowInnerSize
    ∧ (claimed_extent capabilities windowInnerSize =
         select_swap_extent windowInnerSize
       ↔ (capabilities.currentExtent = none
          ∨ capabilities.currentExtent = some windowInnerSize)) := by
  refine ⟨rfl, ?_⟩
  unfold claimed_extent select_swap_extent
  cases h : capabilities.currentExtent with
  | none => simp
  | some extent => simp

/-- Claim C3 witness: the amended statement evaluated at the concrete
capabilities defining current extent (100, 100) and window size
(200, 200). -/
theorem extent_selection_witness :
    select_swap_extent (200, 200) = (200, 200)
    ∧ (claimed_extent capsC3 (200, 200) = select_swap_extent (200, 200)
       ↔ (capsC3.currentExtent = none
          ∨ capsC3.currentExtent = some (200, 200))) :=
  extent_selection capsC3 (200, 200)

/-- Claim C4 counterexample: when the graphics queue and the present
queue are in the same family (family 0, the only configuration app.rs
create_logical_device ever produces), the claim prescribes exclusive
sharing, but the sharing mode computed at app.rs line 235 is concurrent
across the duplicated family list. -/
theorem sharing_mode_claim_false :
    app_sharing_mode 0 0 ≠ claimed_sharing_mode 0 0 := by
  decide

/-- Claim C4 (amended): app.rs always declares concurrent sharing across
the family ids of the two supplied queues, even when they are equal —
the queue family identifiers are never compared — so the computed mode
agrees with the claimed policy exactly when the families differ; main.rs
passes a single queue and always gets exclusive sharing. -/
theorem queue_sharing_policy
    (graphicsFamily presentFamily queueFamily : Nat) :
    app_sharing_mode graphicsFamily presentFamily =
      SharingMode.Concurrent [graphicsFamily, presentFamily]
    ∧ main_sharing_mode queueFamily = SharingMode.Exclusive
    ∧ (app_sharing_mode graphicsFamily presentFamily =
         claimed_sharing_mode graphicsFamily presentFamily
       ↔ graphicsFamily ≠ presentFamily) := by
  refine ⟨rfl, rfl, ?_⟩
  unfold app_sharing_mode claimed_sharing_mode sharingModeOfQueueSlice
  by_cases hgp : graphicsFamily = presentFamily
  · simp [hgp]
  · simp [hgp]

/-- Claim C4 witness: the amended statement evaluated at distinct
families 0 and 1 and single-queue family 2. -/
theorem queue_sharing_policy_witness :
    app_sharing_mode 0 1 = SharingMode.Concurrent [0, 1]
    ∧ main_sharing_mode 2 = SharingMode.Exclusive
    ∧ (app_sharing_mode 0 1 = claimed_sharing_mode 0 1 ↔ (0 : Nat) ≠ 1) :=
  queue_sharing_policy 0 1 2

/-- If the preferred pair is among the supported formats, find? locates
it (the search predicate is satisfied exactly by that pair). -/
theorem select_swap_surface_format_of_mem
    (formats : List (Format × ColorSpace))
    (hmem : (Format.B8G8R8A8Srgb, ColorSpace.SrgbNonLinear) ∈ formats) :
    select_swap_surface_format formats =
      some (Format.B8G8R8A8Srgb, ColorSpace.SrgbNonLinear) := by
  unfold select_swap_surface_format
  have hsome : (formats.find? (fun fc =>
      fc.1 = Format.B8G8R8A8Srgb ∧ fc.2 = ColorSpace.SrgbNonLinear)).isSome := by
    rw [List.find?_isSome]
    exact ⟨(Format.B8G8R8A8Srgb, ColorSpace.SrgbNonLinear), hmem, by decide⟩
  obtain ⟨fc, hfc⟩ := Option.isSome_iff_exists.mp hsome
  have hpred := List.find?_some hfc
  simp only [decide_eq_true_eq, Bool.and_eq_true] at hpred
  have hfceq : fc = (Format.B8G8R8A8Srgb, ColorSpace.SrgbNonLinear) := by
    obtain ⟨f, c⟩ := fc
    obtain ⟨h1, h2⟩ := hpred
    dsimp only at h1 h2
    rw [h1, h2]
  rw [hfc, hfceq]

/-- If the preferred pair is not among the supported formats, find?
fails and the fallback is the head of the list. -/
theorem select_swap_surface_format_of_not_mem
    (formats : List (Format × ColorSpace))
    (hmem : (Format.B8G8R8A8Srgb, ColorSpace.SrgbNonLinear) ∉ formats) :
    select_swap_surface_format formats = formats.head? := by
  unfold select_swap_surface_format
  have hnone : formats.find? (fun fc =>
      fc.1 = Format.B8G8R8A8Srgb ∧ fc.2 = ColorSpace.SrgbNonLinear) = none := by
    rw [List.find?_eq_none]
    intro fc hfc hpred
    simp only [decide_eq_true_eq, Bool.and_eq_true] at hpred
    obtain ⟨f, c⟩ := fc
    obtain ⟨h1, h2⟩ := hpred
    dsimp only at h1 h2
    rw [h1, h2] at hfc
    exact hmem hfc
  rw [hnone]

/-- Claim C9: format selection returns (B8G8R8A8Srgb, SrgbNonLinear)
when that pair is supported and otherwise the first supported entry
(always succeeding on a non-empty list); present-mode selection returns
Mailbox if supported, else Immediate if supported, else Fifo; both are
pure functions, so repeated calls on equal inputs yield identical
results. -/
theorem format_and_present_mode_selection
    (formats : List (Format × ColorSpace)) (modes : SupportedPresentModes)
    (hne : formats ≠ []) :
    ((Format.B8G8R8A8Srgb, ColorSpace.SrgbNonLinear) ∈ formats →
      select_swap_surface_format formats =
        some (Format.B8G8R8A8Srgb, ColorSpace.SrgbNonLinear))
    ∧ ((Format.B8G8R8A8Srgb, ColorSpace.SrgbNonLinear) ∉ formats →
      select_swap_surface_format formats = formats.head?)
    ∧ (select_swap_surface_format formats).isSome = true
    ∧ (modes.mailbox = true →
        select_swap_present_mode modes = PresentMode.Mailbox)
    ∧ (modes.mailbox = false → modes.immediate = true →
        select_swap_present_mode modes = PresentMode.Immediate)
    ∧ (modes.mailbox = false → modes.immediate = false →
        select_swap_present_mode modes = PresentMode.Fifo)
    ∧ select_swap_surface_format formats = select_swap_surface_format formats
    ∧ select_swap_present_mode modes = select_swap_present_mode modes := by
  refine ⟨select_swap_surface_format_of_mem formats,
    select_swap_surface_format_of_not_mem formats, ?_, ?_, ?_, ?_, rfl, rfl⟩
  · by_cases hmem : (Format.B8G8R8A8Srgb, ColorSpace.SrgbNonLinear) ∈ formats
    · rw [select_swap_surface_format_of_mem formats hmem]
      rfl
    · rw [select_swap_surface_format_of_not_mem formats hmem]
      cases formats with
      | nil => exact absurd rfl hne
      | cons a l => rfl
  · intro hm
    unfold select_swap_present_mode
    rw [hm]
    rfl
  · intro hm hi
    unfold select_swap_present_mode
    rw [hm, hi]
    rfl
  · intro hm hi
    unfold select_swap_present_mode
    rw [hm, hi]
    rfl

/-- Claim C9 witness: selection evaluated on a concrete two-entry format
list containing the preferred pair (in second position) and on the
fifo-only mode set. -/
theorem format_and_present_mode_selection_witness :
    ((Format.B8G8R8A8Srgb, ColorSpace.SrgbNonLinear) ∈
        [(Format.otherFormat 5, ColorSpace.otherColorSpace 2),
         (Format.B8G8R8A8Srgb, ColorSpace.SrgbNonLinear)] →
      select_swap_surface_format
          [(Format.otherFormat 5, ColorSpace.otherColorSpace 2),
           (Format.B8G8R8A8Srgb, ColorSpace.SrgbNonLinear)] =
        some (Format.B8G8R8A8Srgb, ColorSpace.SrgbNonLinear))
    ∧ ((Format.B8G8R8A8Srgb, ColorSpace.SrgbNonLinear) ∉
        [(Format.otherFormat 5, ColorSpace.otherColorSpace 2),
         (Format.B8G8R8A8Srgb, ColorSpace.SrgbNonLinear)] →
      select_swap_surface_format
          [(Format.otherFormat 5, ColorSpace.otherColorSpace 2),
           (Format.B8G8R8A8Srgb, ColorSpace.SrgbNonLinear)] =
        [(Format.otherFormat 5, ColorSpace.otherColorSpace 2),
         (Format.B8G8R8A8Srgb, ColorSpace.SrgbNonLinear)].head?)
    ∧ (select_swap_surface_format
        [(Format.otherFormat 5, ColorSpace.otherColorSpace 2),
         (Format.B8G8R8A8Srgb, ColorSpace.SrgbNonLinear)]).isSome = true
    ∧ (modesFifoOnly.mailbox = true →
        select_swap_present_mode modesFifoOnly = PresentMode.Mailbox)
    ∧ (modesFifoOnly.mailbox = false → modesFifoOnly.immediate = true →
        select_swap_present_mode modesFifoOnly = PresentMode.Immediate)
    ∧ (modesFifoOnly.mailbox = false → modesFifoOnly.immediate = false →
        select_swap_present_mode modesFifoOnly = PresentMode.Fifo)
    ∧ select_swap_surface_format
        [(Format.otherFormat 5, ColorSpace.otherColorSpace 2),
         (Format.B8G8R8A8Srgb, ColorSpace.SrgbNonLinear)] =
      select_swap_surface_format
        [(Format.otherFormat 5, ColorSpace.otherColorSpace 2),
         (Format.B8G8R8A8Srgb, ColorSpace.SrgbNonLinear)]
    ∧ select_swap_present_mode modesFifoOnly =
      select_swap_present_mode modesFifoOnly :=
  format_and_present_mode_selection
    [(Format.otherFormat 5, ColorSpace.otherColorSpace 2),
     (Format.B8G8R8A8Srgb, ColorSpace.SrgbNonLinear)]
    modesFifoOnly (by decide)

/-- Claim C10: create_framebuffers reads the dimensions of the first
swapchain image before iterating, so it panics (none) on the empty image
list; on any non-empty list it returns one framebuffer per image — the
images in the same order, each bound to the given render pass — and sets
the dynamic-state viewport to the dimensions of the first image. -/
theorem create_framebuffers_first_image (renderPass : RenderPass) :
    (∀ dynamicState, create_framebuffers [] renderPass dynamicState = none)
    ∧ (∀ images dynamicState firstImage, images.head? = some firstImage →
        ∃ framebuffers dynamicState1,
          create_framebuffers images renderPass dynamicState =
            some (framebuffers, dynamicState1)
          ∧ framebuffers.map FramebufferM.image = images
          ∧ (∀ fb ∈ framebuffers, fb.renderPass = renderPass)
          ∧ framebuffers.length = images.length
          ∧ dynamicState1.viewports =
              some [{ origin := (0, 0), dimensions := firstImage.dimensions,
                      depthRange := (0, 1) }]) := by
  refine ⟨fun dynamicState => create_framebuffers_nil renderPass dynamicState, ?_⟩
  intro images dynamicState firstImage hhead
  cases images with
  | nil => exact absurd hhead (by simp)
  | cons img imgs =>
    have himg : img = firstImage := by
      simpa using hhead
    subst himg
    refine ⟨(img :: imgs).map (fun image =>
        { renderPass := renderPass, image := image }),
      { dynamicState with
        viewports := some [{ origin := (0, 0), dimensions := img.dimensions,
                             depthRange := (0, 1) }] },
      create_framebuffers_cons img imgs renderPass dynamicState, ?_, ?_, ?_, rfl⟩
    · rw [List.map_map]
      exact List.map_id ((img :: imgs))
    · intro fb hfb
      rw [List.mem_map] at hfb
      obtain ⟨image, _, hfb⟩ := hfb
      rw [← hfb]
    · rw [List.length_map]

/-- Claim C10 witness: create_framebuffers evaluated on the empty list
and on a concrete two-image list. -/
theorem create_framebuffers_first_image_witness :
    create_framebuffers [] renderPass0 ds0 = none
    ∧ (∃ framebuffers dynamicState1,
        create_framebuffers [img800, img640] renderPass0 ds0 =
          some (framebuffers, dynamicState1)
        ∧ framebuffers.map FramebufferM.image = [img800, img640]
        ∧ (∀ fb ∈ framebuffers, fb.renderPass = renderPass0)
        ∧ framebuffers.length = ([img800, img640] : List SwapchainImageM).length
        ∧ dynamicState1.viewports =
            some [{ origin := (0, 0), dimensions := img800.dimensions,
                    depthRange := (0, 1) }]) :=
  ⟨(create_framebuffers_first_image renderPass0).1 ds0,
   (create_framebuffers_first_image renderPass0).2 [img800, img640] ds0
     img800 rfl⟩

/-! Claim theorems: the presentation loop. -/

/-- Claim C1: single token ownership — for every sequence of redraw
iterations started with the token present, the frame synchronization
token is taken at most once per iteration before being replaced (each
iteration performs either no token operation or exactly one take
immediately followed by one store), every iteration that takes it stores
a replacement token before the iteration ends (the final state again
holds a token, across all three flush outcomes), and an iteration facing
an already-consumed token fails fast (panics on the unwrap/expect)
rather than continuing. -/
theorem single_token_ownership (envs : List RedrawEnv)
    (s sFinal : LoopState) (traces : List (List Event))
    (hinit : s.previousFrameEnd.isSome = true)
    (hrun : runRedraws envs s = some (sFinal, traces)) :
    sFinal.previousFrameEnd.isSome = true
    ∧ (∀ events ∈ traces,
        (tokenEvents events).count Event.take ≤ 1
        ∧ (tokenEvents events = []
           ∨ ∃ t, tokenEvents events = [Event.take, Event.store t]))
    ∧ (∀ env2 s2, s2.previousFrameEnd = none → onRedraw env2 s2 = none) := by
  obtain ⟨hfin, htr⟩ :=
    runRedraws_token_invariant envs s sFinal traces hinit hrun
  refine ⟨hfin, ?_, fun env2 s2 h2 => onRedraw_none_of_no_token env2 s2 h2⟩
  intro events hmem
  rcases htr events hmem with ht | ⟨t, ht⟩
  · refine ⟨by rw [ht]; simp, Or.inl ht⟩
  · refine ⟨by rw [ht]; simp, Or.inr ⟨t, ht⟩⟩

/-- Claim C1 witness: two presented frames from the concrete initial
state s0. -/
theorem single_token_ownership_witness :
    sFinalC1.previousFrameEnd.isSome = true
    ∧ (∀ events ∈ tracesC1,
        (tokenEvents events).count Event.take ≤ 1
        ∧ (tokenEvents events = []
           ∨ ∃ t, tokenEvents events = [Event.take, Event.store t]))
    ∧ (∀ env2 s2, s2.previousFrameEnd = none → onRedraw env2 s2 = none) :=
  single_token_ownership [envPresent, envPresent] s0 sFinalC1 tracesC1
    rfl rfl

/-- Claim C7: when the pending rebuild fails with UnsupportedDimensions,
the iteration returns before acquisition with the whole state unchanged
— same swapchain, framebuffer set and token, stale flag still set (the
returned state is exactly the input state, whose flag is true by
hypothesis) — and an empty event trace, so no acquisition happened. -/
theorem unsupported_dimensions_skips (env : RedrawEnv) (s : LoopState)
    (prev : FrameToken)
    (hstale : s.needToRecreateSwapchain = true)
    (hrec : env.recreateResult = RecreateResult.unsupportedDimensions)
    (hprev : s.previousFrameEnd = some prev) :
    onRedraw env s = some (s, FrameOutcome.skippedDegenerateSurface, []) := by
  unfold onRedraw
  rw [hprev, rebuildIfStale_unsupported env s hstale hrec]

/-- Claim C7 witness: the degenerate-surface skip evaluated at the
concrete stale state s0stale. -/
theorem unsupported_dimensions_skips_witness :
    onRedraw envUnsupported s0stale =
      some (s0stale, FrameOutcome.skippedDegenerateSurface, []) :=
  unsupported_dimensions_skips envUnsupported s0stale FrameToken.now
    rfl rfl rfl

/-- Claim C5: out-of-date acquire recovery — an iteration reaching
acquisition that reports OutOfDate aborts with the swapchain marked
stale and the frame synchronization token neither consumed nor replaced
(its value after the iteration equals its value before; the trace has no
token operation), and any later iteration from the resulting stale state
whose trace contains an acquisition has rebuilt the swapchain first and
acquires on the swapchain that rebuild produced. -/
theorem out_of_date_acquire_recovery (env : RedrawEnv) (s s1 : LoopState)
    (outcome : FrameOutcome) (events : List Event)
    (hacq : env.acquireResult = AcquireResult.outOfDate)
    (h : onRedraw env s = some (s1, outcome, events))
    (hreach : outcome ≠ FrameOutcome.skippedDegenerateSurface) :
    outcome = FrameOutcome.skippedOutOfDateAcquire
    ∧ s1.previousFrameEnd = s.previousFrameEnd
    ∧ s1.needToRecreateSwapchain = true
    ∧ tokenEvents events = []
    ∧ (∀ env2 s2 outcome2 events2 swapchain imageIndex,
        onRedraw env2 s1 = some (s2, outcome2, events2) →
        Event.acquire swapchain imageIndex ∈ events2 →
        ∃ imgs rest,
          env2.recreateResult = RecreateResult.ok swapchain imgs
          ∧ events2 = Event.rebuild swapchain ::
              Event.acquire swapchain imageIndex :: rest) := by
  rcases onRedraw_inversion env s s1 outcome events h with
    ⟨_, hoc, _, _, _⟩ | ⟨sa, ev1, hreb, _, hs1, hoc, hev⟩ |
    ⟨sa, ev1, sb, i, ev2, ev3, hreb, hacq2, _, _, _⟩
  · exact absurd hoc hreach
  · obtain ⟨hprev, _, htok, _⟩ := rebuildIfStale_inl_inversion env s sa ev1 hreb
    have hs1flag : s1.needToRecreateSwapchain = true := by rw [hs1]
    have hs1prev : s1.previousFrameEnd = s.previousFrameEnd := by
      rw [hs1]
      exact hprev
    refine ⟨hoc, hs1prev, hs1flag, by rw [hev]; exact htok, ?_⟩
    intro env2 s2 outcome2 events2 swapchain imageIndex h2 hmem2
    exact stale_rebuilds_before_acquire env2 s1 s2 outcome2 events2
      swapchain imageIndex hs1flag h2 hmem2
  · obtain ⟨_, _, _, _, _, subopt, hacqok, _⟩ :=
      acquireStep_inl_inversion env sa sb i ev2 hacq2
    rw [hacq] at hacqok
    exact absurd hacqok (by simp)

/-- Claim C5 witness: the out-of-date acquire evaluated at the concrete
state s0 (not stale, so acquisition is reached). -/
theorem out_of_date_acquire_recovery_witness :
    FrameOutcome.skippedOutOfDateAcquire =
      FrameOutcome.skippedOutOfDateAcquire
    ∧ s0stale.previousFrameEnd = s0.previousFrameEnd
    ∧ s0stale.needToRecreateSwapchain = true
    ∧ tokenEvents [] = []
    ∧ (∀ env2 s2 outcome2 events2 swapchain imageIndex,
        onRedraw env2 s0stale = some (s2, outcome2, events2) →
        Event.acquire swapchain imageIndex ∈ events2 →
        ∃ imgs rest,
          env2.recreateResult = RecreateResult.ok swapchain imgs
          ∧ events2 = Event.rebuild swapchain ::
              Event.acquire swapchain imageIndex :: rest) :=
  out_of_date_acquire_recovery envAcqOutOfDate s0 s0stale
    FrameOutcome.skippedOutOfDateAcquire [] rfl rfl (by decide)

/-- Claim C6: flush-failure degradation — in an iteration whose
submission chain reaches flush (its trace contains a take), an OutOfDate
flush failure marks the swapchain stale and resets the token to the
already-completed placeholder, any other flush failure likewise resets
the token to the placeholder (after logging), and no flush outcome makes
the submit step panic when the token is present. -/
theorem flush_failure_degrades (env : RedrawEnv) (s s1 : LoopState)
    (outcome : FrameOutcome) (events : List Event)
    (h : onRedraw env s = some (s1, outcome, events))
    (htake : Event.take ∈ events) :
    (env.flushResult = FlushResult.outOfDate →
      outcome = FrameOutcome.droppedOutOfDateFlush
      ∧ s1.needToRecreateSwapchain = true
      ∧ s1.previousFrameEnd = some FrameToken.now)
    ∧ (env.flushResult = FlushResult.otherError →
      outcome = FrameOutcome.droppedOtherFlushError
      ∧ s1.previousFrameEnd = some FrameToken.now)
    ∧ (∀ env2 s2 imageIndex prev, s2.previousFrameEnd = some prev →
        (submitAndFlush env2 s2 imageIndex).isSome = true) := by
  refine ⟨?_, ?_,
    fun env2 s2 imageIndex prev hprev =>
      submitAndFlush_isSome env2 s2 imageIndex prev hprev⟩
  all_goals
    rcases onRedraw_inversion env s s1 outcome events h with
      ⟨_, _, hev, _, _⟩ | ⟨sa, ev1, hreb, _, _, _, hev⟩ |
      ⟨sa, ev1, sb, i, ev2, ev3, hreb, hacq, _, hsub, hev⟩
  · rw [hev] at htake
    exact absurd htake (by simp)
  · obtain ⟨_, _, _, hcase⟩ := rebuildIfStale_inl_inversion env s sa ev1 hreb
    have : Event.take ∉ ev1 := by
      rcases hcase with ⟨hev1, _, _⟩ | ⟨_, _, hev1, _⟩ <;> rw [hev1] <;> simp
    rw [hev] at htake
    exact absurd htake this
  · intro hf
    obtain ⟨prev, _, hcases⟩ :=
      submitAndFlush_inversion env sb i s1 outcome ev3 hsub
    rcases hcases with ⟨hfr, _, _, _⟩ | ⟨_, hoc, hs1, _⟩ | ⟨hfr, _, _, _⟩
    · rw [hf] at hfr
      exact absurd hfr.symm (by simp)
    · refine ⟨hoc, by rw [hs1], by rw [hs1]⟩
    · rw [hf] at hfr
      exact absurd hfr.symm (by simp)
  · rw [hev] at htake
    exact absurd htake (by simp)
  · obtain ⟨_, _, _, hcase⟩ := rebuildIfStale_inl_inversion env s sa ev1 hreb
    have : Event.take ∉ ev1 := by
      rcases hcase with ⟨hev1, _, _⟩ | ⟨_, _, hev1, _⟩ <;> rw [hev1] <;> simp
    rw [hev] at htake
    exact absurd htake this
  · intro hf
    obtain ⟨prev, _, hcases⟩ :=
      submitAndFlush_inversion env sb i s1 outcome ev3 hsub
    rcases hcases with ⟨hfr, _, _, _⟩ | ⟨hfr, _, _, _⟩ | ⟨_, hoc, hs1, _⟩
    · rw [hf] at hfr
      exact absurd hfr.symm (by simp)
    · rw [hf] at hfr
      exact absurd hfr.symm (by simp)
    · exact ⟨hoc, by rw [hs1]⟩

/-- Claim C6 witness: the out-of-date flush failure evaluated at the
concrete state s0. -/
theorem flush_failure_degrades_witness :
    (envFlushOutOfDate.flushResult = FlushResult.outOfDate →
      FrameOutcome.droppedOutOfDateFlush = FrameOutcome.droppedOutOfDateFlush
      ∧ s1C6.needToRecreateSwapchain = true
      ∧ s1C6.previousFrameEnd = some FrameToken.now)
    ∧ (envFlushOutOfDate.flushResult = FlushResult.otherError →
      FrameOutcome.droppedOutOfDateFlush = FrameOutcome.droppedOtherFlushError
      ∧ s1C6.previousFrameEnd = some FrameToken.now)
    ∧ (∀ env2 s2 imageIndex prev, s2.previousFrameEnd = some prev →
        (submitAndFlush env2 s2 imageIndex).isSome = true) :=
  flush_failure_degrades envFlushOutOfDate s0 s1C6
    FrameOutcome.droppedOutOfDateFlush
    [Event.acquire 0 0, Event.take, Event.store FrameToken.now]
    rfl (by decide)

/-- Claim C8: suboptimal-acquire policy — an iteration whose acquisition
succeeds with the suboptimal flag still records, submits and presents
the frame with the acquired image (the trace contains the acquisition
and a take, and on a successful flush the outcome is presented and the
stored chain presents that image index on the acquired swapchain), the
state ends marked stale so the rebuild happens at the start of the next
tick, and no rebuild occurs in this iteration beyond one already pending
on entry. -/
theorem suboptimal_presents_and_marks_stale (env : RedrawEnv)
    (s s1 : LoopState) (outcome : FrameOutcome) (events : List Event)
    (imageIndex : Nat)
    (hacq : env.acquireResult = AcquireResult.ok imageIndex true)
    (h : onRedraw env s = some (s1, outcome, events))
    (hreach : outcome ≠ FrameOutcome.skippedDegenerateSurface) :
    Event.take ∈ events
    ∧ s1.needToRecreateSwapchain = true
    ∧ (∃ swapchain, Event.acquire swapchain imageIndex ∈ events
        ∧ (env.flushResult = FlushResult.ok →
            outcome = FrameOutcome.presented
            ∧ ∃ prevToken, s1.previousFrameEnd =
                some (FrameToken.chain prevToken swapchain imageIndex)))
    ∧ (∀ swapchain2, Event.rebuild swapchain2 ∈ events →
        s.needToRecreateSwapchain = true) := by
  rcases onRedraw_inversion env s s1 outcome events h with
    ⟨_, hoc, _, _, _⟩ | ⟨sa, ev1, hreb, hacq2, _, _, _⟩ |
    ⟨sa, ev1, sb, i, ev2, ev3, hreb, hacq2, _, hsub, hev⟩
  · exact absurd hoc hreach
  · rw [hacq] at hacq2
    exact absurd hacq2 (by simp)
  · obtain ⟨hsbPrev, hsbSc, _, hev2, _, subopt, hacqok, hsbFlag⟩ :=
      acquireStep_inl_inversion env sa sb i ev2 hacq2
    rw [hacq] at hacqok
    rw [AcquireResult.ok.injEq] at hacqok
    obtain ⟨hi, hsubopt⟩ := hacqok
    subst hi
    obtain ⟨prev, hprev, hcases⟩ :=
      submitAndFlush_inversion env sb imageIndex s1 outcome ev3 hsub
    have hev3 : ∃ t, ev3 = [Event.take, Event.store t] := by
      rcases hcases with ⟨_, _, _, he⟩ | ⟨_, _, _, he⟩ | ⟨_, _, _, he⟩ <;>
        exact ⟨_, he⟩
    obtain ⟨t, hev3eq⟩ := hev3
    have hsbFlagTrue : sb.needToRecreateSwapchain = true := by
      rw [hsbFlag, ← hsubopt]
      simp
    have hs1Flag : s1.needToRecreateSwapchain = true := by
      rcases hcases with ⟨_, _, hs1, _⟩ | ⟨_, _, hs1, _⟩ | ⟨_, _, hs1, _⟩ <;>
        rw [hs1] <;> simpa using hsbFlagTrue
    refine ⟨?_, hs1Flag, ⟨sb.swapchain, ?_, ?_⟩, ?_⟩
    · rw [hev, hev3eq]
      simp
    · rw [hev, hev2, hsbSc]
      simp
    · intro hf
      rcases hcases with ⟨_, hoc, hs1, _⟩ | ⟨hfr, _, _, _⟩ | ⟨hfr, _, _, _⟩
      · exact ⟨hoc, prev, by rw [hs1]⟩
      · rw [hf] at hfr
        exact absurd hfr.symm (by simp)
      · rw [hf] at hfr
        exact absurd hfr.symm (by simp)
    · intro swapchain2 hmem2
      obtain ⟨_, _, _, hcase⟩ :=
        rebuildIfStale_inl_inversion env s sa ev1 hreb
      rcases hcase with ⟨hev1, _, _⟩ | ⟨_, _, _, hflag⟩
      · rw [hev, hev1, hev2, hev3eq] at hmem2
        exact absurd hmem2 (by simp)
      · exact hflag

/-- Claim C8 witness: a suboptimal acquisition evaluated at the concrete
state s0 with a successful flush. -/
theorem suboptimal_presents_and_marks_stale_witness :
    Event.take ∈ [Event.acquire 0 0, Event.take,
      Event.store (FrameToken.chain FrameToken.now 0 0)]
    ∧ s1C8.needToRecreateSwapchain = true
    ∧ (∃ swapchain, Event.acquire swapchain 0 ∈
        [Event.acquire 0 0, Event.take,
         Event.store (FrameToken.chain FrameToken.now 0 0)]
        ∧ (envSuboptimal.flushResult = FlushResult.ok →
            FrameOutcome.presented = FrameOutcome.presented
            ∧ ∃ prevToken, s1C8.previousFrameEnd =
                some (FrameToken.chain prevToken swapchain 0)))
    ∧ (∀ swapchain2, Event.rebuild swapchain2 ∈
        [Event.acquire 0 0, Event.take,
         Event.store (FrameToken.chain FrameToken.now 0 0)] →
        s0.needToRecreateSwapchain = true) :=
  suboptimal_presents_and_marks_stale envSuboptimal s0 s1C8
    FrameOutcome.presented
    [Event.acquire 0 0, Event.take,
     Event.store (FrameToken.chain FrameToken.now 0 0)] 0
    rfl rfl (by decide)

end VulkanApp
